import Mathlib

/-!
Shallow embedding of the `anki-converter` pipeline (`src/anki_converter.py`).

The Python module converts an Anki `.apkg` archive into a flat table.  The
embedding models the pure content of each method:

* `extractDb`        — `AnkiConverter._extract_db` (entry selection logic);
* `getHeader`        — `AnkiConverter._get_header`;
* `getModelNames`    — body of `AnkiConverter.get_model_names`;
* `cleanHtml`        — `AnkiConverter._clean_html` (the BeautifulSoup call is an
                       external collaborator, passed as the `soup` parameter);
* `processMediaTags` — `AnkiConverter._process_media_tags`, with the regex
                       `\[sound:(.*?)\]` substitution implemented as a direct
                       left-to-right character scan (`processChars`);
* `projectRow` / `getValues` — the per-row loop of `AnkiConverter._get_values`
                       (the SQL join is modelled as an input list of
                       note-card pairs, the `WHERE n.mid = ?` clause as a
                       filter);
* `resolveMid` / `convert` — `AnkiConverter.convert` up to the DataFrame
                       serialization boundary;
* `convertRun` / `getModelNamesRun` — the try/finally resource discipline of
                       `convert` and `get_model_names`, with step outcomes
                       abstracted as boolean traces.

Python truthiness tests on optional values (`if mid:`, `if model_name:`,
`if card_type:`, `if media_map:`) are modelled exactly: `None`, `0`, the empty
string and the empty dict are all falsy.
-/

/-- Field definition of a note type: one element of a model's `flds` JSON list
(only the `name` key is read by the code). -/
structure FieldDef where
  name : String
deriving Repr, DecidableEq

/-- Template definition of a note type: one element of a model's `tmpls` JSON
list (only the `name` key is read by the code). -/
structure TemplateDef where
  name : String
deriving Repr, DecidableEq

/-- A note type (model) as decoded by `_get_models`: the keys of the model
dict that the converter reads are `name`, `flds` and `tmpls`. -/
structure Model where
  name : String
  flds : List FieldDef
  tmpls : List TemplateDef
deriving Repr, DecidableEq

/-- The model catalog returned by `_get_models`: a mapping from integer model
id to model, in JSON insertion order (Python dicts preserve it). -/
abbrev Models := List (Int × Model)

/-- Error taxonomy of the conversion pipeline, following the spec names.  The
code raises `ValueError` for all three and wraps them in `RuntimeError`; the
constructors record which structural failure occurred. -/
inductive ConvErr where
  | notFound (msg : String)
  | formatError (msg : String)
  | schemaError (msg : String)
deriving Repr, DecidableEq

/-- One (note, card) pair from the SQL join
`SELECT n.flds, n.mid, c.ord FROM notes n JOIN cards c ON n.id = c.nid`. -/
structure NoteCard where
  flds : String
  mid : Int
  ord : Nat
deriving Repr, DecidableEq

/-- Result of `convert` up to the serialization boundary: the resolved header
and the projected rows that are handed to the DataFrame writer. -/
structure ConvertOutput where
  header : List String
  values : List (List String)
deriving Repr, DecidableEq

/-- Entry-selection logic of `_extract_db`: prefer `collection.anki21`, else
`collection.anki2`, else fail.  The archive is modelled by its entry-name
list (`zf.namelist()`). -/
def extractDb (entryNames : List String) : Except ConvErr String :=
  if entryNames.contains "collection.anki21" then
    Except.ok "collection.anki21"
  else if entryNames.contains "collection.anki2" then
    Except.ok "collection.anki2"
  else
    Except.error (ConvErr.formatError "Invalid apkg file: collection database not found")

/-- Python truthiness of the optional model id (`if mid:`): `None` and `0`
are falsy, every other integer is truthy. -/
def midTruthy : Option Int → Bool
  | none => false
  | some m => m != 0

/-- Embedding of `_get_header`: fail if the catalog is empty; if a truthy
model id is given look it up (failing when absent), otherwise default to the
first model of the catalog; return `["Note Type", "Card Type"]` followed by
that model's field names. -/
def getHeader (models : Models) (mid : Option Int) : Except ConvErr (List String) :=
  if models.isEmpty then
    Except.error (ConvErr.schemaError "No models found in collection")
  else
    let found :=
      if midTruthy mid then List.lookup (mid.getD 0) models
      else models.head?.map Prod.snd
    match found with
    | none => Except.error (ConvErr.notFound "Model with given ID not found")
    | some model => Except.ok (["Note Type", "Card Type"] ++ model.flds.map FieldDef.name)

/-- Body of `get_model_names`: the names of all models in catalog order. -/
def getModelNames (models : Models) : List String :=
  models.map fun p => p.2.name

/-- Embedding of `_clean_html`: empty text maps to the empty string; text
without the character `<` is returned unchanged; otherwise the external
BeautifulSoup extraction (parameter `soup`) is applied. -/
def cleanHtml (soup : String → String) (text : String) : String :=
  if text = "" then ""
  else if text.data.contains '<' then soup text
  else text

/-- Scan for the closing bracket of the regex `\[sound:(.*?)\]` starting just
after `[sound:`.  Mirrors the non-greedy capture `(.*?)`: the capture takes
the characters up to the first `]`, and since `.` does not match a newline,
a newline before any `]` means the position does not match at all. -/
def scanFilename : List Char → Option (List Char × List Char)
  | [] => none
  | c :: cs =>
    if c = ']' then some ([], cs)
    else if c = '\n' then none
    else
      match scanFilename cs with
      | some (a, b) => some (c :: a, b)
      | none => none

/-- Replacement function `replace_sound` of `_process_media_tags`: a filename
found in the media map becomes the mapped path (or a spreadsheet HYPERLINK
formula when `is_excel`); an unknown filename reproduces the whole matched
tag verbatim. -/
def soundReplacement (mediaMap : List (String × String)) (isExcel : Bool) (fname : String) : String :=
  match List.lookup fname mediaMap with
  | some path =>
    if isExcel then "=HYPERLINK(\x22" ++ path ++ "\x22, \x22Play Audio\x22)" else path
  | none => "[sound:" ++ fname ++ "]"

/-- Fuelled left-to-right scan implementing
`re.sub(r'\[sound:(.*?)\]', replace_sound, text)`: at each position, if the
text starts with `[sound:` and a closing `]` occurs before any newline, the
whole tag is replaced and scanning resumes after it; otherwise one character
is emitted and scanning advances.  The fuel only serves termination; it is
never exhausted when initialized to the list length. -/
def processCharsGo (mediaMap : List (String × String)) (isExcel : Bool) : Nat → List Char → List Char
  | _, [] => []
  | 0, l => l
  | fuel + 1, c :: cs =>
    if "[sound:".data.isPrefixOf (c :: cs) then
      match scanFilename ((c :: cs).drop 7) with
      | some (fname, rest) =>
        (soundReplacement mediaMap isExcel (String.mk fname)).data ++
          processCharsGo mediaMap isExcel fuel rest
      | none => c :: processCharsGo mediaMap isExcel fuel cs
    else c :: processCharsGo mediaMap isExcel fuel cs

/-- The regex substitution of `_process_media_tags` on a character list. -/
def processChars (mediaMap : List (String × String)) (isExcel : Bool) (l : List Char) : List Char :=
  processCharsGo mediaMap isExcel l.length l

/-- Embedding of `_process_media_tags`: empty text maps to the empty string,
otherwise every `[sound:...]` tag is substituted by `processChars`. -/
def processMediaTags (mediaMap : List (String × String)) (isExcel : Bool) (text : String) : String :=
  if text = "" then ""
  else String.mk (processChars mediaMap isExcel text.data)

/-- Decidable occurrence test for the pattern `\[sound:(.*?)\]`: true exactly
when the scan of `processChars` would perform at least one replacement. -/
def hasSoundTag : List Char → Bool
  | [] => false
  | c :: cs =>
    if "[sound:".data.isPrefixOf (c :: cs) then
      match scanFilename ((c :: cs).drop 7) with
      | some _ => true
      | none => hasSoundTag cs
    else hasSoundTag cs

/-- The field separator of the legacy wire format: byte `0x1F`. -/
def sentinel : Char := Char.ofNat 31

/-- Python `str.split(sep)` for a single-character separator: the empty string
yields `[""]`, and every separator occurrence opens a new (possibly empty)
fragment. -/
def splitOnChar (sep : Char) : List Char → List (List Char)
  | [] => [[]]
  | c :: cs =>
    let rest := splitOnChar sep cs
    if c = sep then [] :: rest
    else
      match rest with
      | [] => [[c]]
      | r :: rs => (c :: r) :: rs

/-- The statement `fields = row[0].split("\x1f")` of `_get_values`. -/
def splitFields (s : String) : List String :=
  (splitOnChar sentinel s.data).map String.mk

/-- Template-name resolution of `_get_values` (lines 180-185): an ordinal
within the template list yields that template's name, an out-of-range ordinal
yields the synthesized name `Card` followed by ordinal + 1. -/
def cardTypeNameOf (tmpls : List TemplateDef) (ord : Nat) : String :=
  match tmpls.get? ord with
  | some t => t.name
  | none => "Card " ++ toString (ord + 1)

/-- Per-field cleaning of `_get_values`: media tags are rewritten only when
the media map is non-empty (`if media_map:`), then HTML is stripped. -/
def cleanField (mediaMap : List (String × String)) (isExcel : Bool) (soup : String → String)
    (field : String) : String :=
  cleanHtml soup (if mediaMap.isEmpty then field else processMediaTags mediaMap isExcel field)

/-- Body of the row loop of `_get_values` for one (note, card) pair: split the
raw content on the sentinel, resolve the model (defaulting its name to
`Unknown` and its template list to `[]` when the id is absent), resolve the
template name, skip the row when a truthy card-type filter disagrees
(`if card_type and card_type != card_type_name: continue`), else emit the
model name, the template name and all cleaned fragments. -/
def projectRow (models : Models) (cardType : Option String) (mediaMap : List (String × String))
    (isExcel : Bool) (soup : String → String) (r : NoteCard) : Option (List String) :=
  let fields := splitFields r.flds
  let model := List.lookup r.mid models
  let modelName := (model.map Model.name).getD "Unknown"
  let tmpls := (model.map Model.tmpls).getD []
  let cardTypeName := cardTypeNameOf tmpls r.ord
  let skip :=
    match cardType with
    | none => false
    | some ct => ct != "" && ct != cardTypeName
  if skip then none
  else some ([modelName, cardTypeName] ++ fields.map (cleanField mediaMap isExcel soup))

/-- Embedding of `_get_values`: the joined note-card rows, restricted by the
`WHERE n.mid = ?` clause only when the model id is truthy (`if mid:`), each
projected by `projectRow` (rows skipped by the card-type filter are dropped,
processing continues). -/
def getValues (models : Models) (mid : Option Int) (cardType : Option String)
    (mediaMap : List (String × String)) (isExcel : Bool) (soup : String → String)
    (rows : List NoteCard) : List (List String) :=
  let selected := if midTruthy mid then rows.filter (fun r => r.mid == mid.getD 0) else rows
  selected.filterMap (projectRow models cardType mediaMap isExcel soup)

/-- Model-name resolution loop of `convert` (lines 213-218): the first catalog
entry whose model name equals the requested name, if any. -/
def resolveMid (models : Models) (modelName : String) : Option Int :=
  (models.find? fun p => p.2.name == modelName).map Prod.fst

/-- Python truthiness of the optional model-name filter (`if model_name:`):
`None` and the empty string are falsy. -/
def modelNameTruthy : Option String → Bool
  | none => false
  | some s => s != ""

/-- Embedding of `convert` up to the serialization boundary: resolve a truthy
model-name filter to an id (failing when no model matches), compute the
header, then the rows.  The error is raised before the header and rows are
computed, so a failed resolution produces no output. -/
def convert (models : Models) (rows : List NoteCard) (modelName : Option String)
    (cardType : Option String) (mediaMap : List (String × String)) (isExcel : Bool)
    (soup : String → String) : Except ConvErr ConvertOutput :=
  let resolved : Except ConvErr (Option Int) :=
    if modelNameTruthy modelName then
      match resolveMid models (modelName.getD "") with
      | some m => Except.ok (some m)
      | none =>
        Except.error (ConvErr.notFound ("Model " ++ modelName.getD "" ++ " not found"))
    else Except.ok none
  match resolved with
  | Except.error e => Except.error e
  | Except.ok mid =>
    match getHeader models mid with
    | Except.error e => Except.error e
    | Except.ok header =>
      Except.ok
        { header := header
          values := getValues models mid cardType mediaMap isExcel soup rows }

/-- Transient resources of a conversion run: the extracted scratch database
file and the open SQLite connection. -/
structure ResourceState where
  tempFileExists : Bool
  connOpen : Bool
deriving Repr, DecidableEq

/-- Outcome trace of the fallible steps of `convert`: each flag records
whether the corresponding pipeline step succeeds or raises. -/
structure ConvertTrace where
  extractOk : Bool
  connectOk : Bool
  resolveOk : Bool
  headerOk : Bool
  valuesOk : Bool
  writeOk : Bool
deriving Repr, DecidableEq

/-- Outcome trace of the fallible steps of `get_model_names`. -/
structure ModelNamesTrace where
  extractOk : Bool
  connectOk : Bool
  modelsOk : Bool
deriving Repr, DecidableEq

/-- The `try` block of `convert` as a resource transformer: `_extract_db`
materializes the scratch file, `_get_connection` opens the connection, and
each later step may raise, aborting the block with the resources still held. -/
def convertBodyRun (t : ConvertTrace) (s : ResourceState) : Bool × ResourceState :=
  if !t.extractOk then (false, s)
  else
    let s1 := { s with tempFileExists := true }
    if !t.connectOk then (false, s1)
    else
      let s2 := { s1 with connOpen := true }
      if !t.resolveOk then (false, s2)
      else if !t.headerOk then (false, s2)
      else if !t.valuesOk then (false, s2)
      else if !t.writeOk then (false, s2)
      else (true, s2)

/-- The `finally` block shared by `convert` and `get_model_names`:
`if conn: conn.close()` and `if db_path and os.path.exists(db_path):
os.remove(db_path)`. -/
def finallyRelease (s : ResourceState) : ResourceState :=
  let s1 := if s.connOpen then { s with connOpen := false } else s
  if s1.tempFileExists then { s1 with tempFileExists := false } else s1

/-- A full run of `convert`, starting with no resources held: the body runs
under the given outcome trace and the `finally` block always executes. -/
def convertRun (t : ConvertTrace) : Bool × ResourceState :=
  let out := convertBodyRun t { tempFileExists := false, connOpen := false }
  (out.1, finallyRelease out.2)

/-- The `try` block of `get_model_names` as a resource transformer. -/
def modelNamesBodyRun (t : ModelNamesTrace) (s : ResourceState) : Bool × ResourceState :=
  if !t.extractOk then (false, s)
  else
    let s1 := { s with tempFileExists := true }
    if !t.connectOk then (false, s1)
    else
      let s2 := { s1 with connOpen := true }
      if !t.modelsOk then (false, s2)
      else (true, s2)

/-- A full run of `get_model_names`, starting with no resources held. -/
def getModelNamesRun (t : ModelNamesTrace) : Bool × ResourceState :=
  let out := modelNamesBodyRun t { tempFileExists := false, connOpen := false }
  (out.1, finallyRelease out.2)

/-- First-seen (insertion-order) deduplication, used only to phrase the
spec's header formula. -/
def dedupFirstSeen (l : List String) : List String :=
  l.foldl (fun acc x => if acc.contains x then acc else acc ++ [x]) []

/-- Modelled from the spec: the header formula claimed by `resolveHeader`
with no filter, namely `["Note Type", "Card Type"]` followed by the union of
field names across all note types in first-seen order.  Stated only to be
compared against the code's `getHeader`. -/
def specHeaderUnion (models : Models) : List String :=
  ["Note Type", "Card Type"] ++
    dedupFirstSeen (models.flatMap fun p => p.2.flds.map FieldDef.name)

/-- Concrete note type with two fields and one template, used as a fixture. -/
def modelA : Model :=
  { name := "A", flds := [{ name := "F1" }, { name := "F2" }], tmpls := [{ name := "Front" }] }

/-- Concrete note type with one field not shared with `modelA`. -/
def modelB : Model :=
  { name := "B", flds := [{ name := "F3" }], tmpls := [] }

/-- Concrete note type used for the id-0 fixture. -/
def modelZ : Model :=
  { name := "Z", flds := [{ name := "G1" }], tmpls := [{ name := "ZFront" }] }

/-- Catalog with two note types whose field sets differ. -/
def twoModels : Models := [(1, modelA), (2, modelB)]

/-- Catalog whose first note type has id 0. -/
def zeroCatalog : Models := [(0, modelZ), (1, modelA)]

/-- Note whose raw content splits into three fragments although its note type
`modelA` declares only two fields. -/
def noteExtra : NoteCard := { flds := "a\x1fb\x1fc", mid := 1, ord := 0 }

/-- Note whose model id 2 is absent from the single-model catalog
`[(1, modelA)]`. -/
def noteOrphan : NoteCard := { flds := "x", mid := 2, ord := 0 }

/-- Identity stand-in for the external BeautifulSoup collaborator, usable on
texts that contain no markup. -/
def soupId : String → String := fun s => s

deriving instance DecidableEq for Except

/-! ## General lemmas about the embedded operations -/

theorem scanFilename_length : ∀ (l a b : List Char), scanFilename l = some (a, b) → b.length < l.length := by
  intro l
  induction l with
  | nil => intro a b h; simp [scanFilename] at h
  | cons c cs ih =>
    intro a b h
    simp only [scanFilename] at h
    by_cases hc : c = ']'
    · simp [hc] at h
      rw [← h.2]
      simp
    · by_cases hn : c = '\n'
      · simp [hc, hn] at h
      · simp only [hc, hn, if_false, if_neg] at h
        cases hsc : scanFilename cs with
        | none => rw [hsc] at h; simp at h
        | some p =>
          rw [hsc] at h
          obtain ⟨a1, b1⟩ := p
          simp only [Option.some.injEq, Prod.mk.injEq] at h
          have hlt := ih a1 b1 hsc
          rw [← h.2]
          simp only [List.length_cons]
          omega

theorem processCharsGo_fuel (m : List (String × String)) (e : Bool) :
    ∀ (fuel₁ : Nat), ∀ (fuel₂ : Nat) (l : List Char), l.length ≤ fuel₁ → l.length ≤ fuel₂ →
      processCharsGo m e fuel₁ l = processCharsGo m e fuel₂ l := by
  intro fuel₁
  induction fuel₁ with
  | zero =>
    intro fuel₂ l h1 _
    have hl : l = [] := List.eq_nil_of_length_eq_zero (Nat.le_zero.mp h1)
    subst hl
    cases fuel₂ <;> rfl
  | succ f ih =>
    intro fuel₂ l h1 h2
    cases l with
    | nil => cases fuel₂ <;> rfl
    | cons c cs =>
      cases fuel₂ with
      | zero => simp at h2
      | succ g =>
        by_cases hp : "[sound:".data.isPrefixOf (c :: cs)
        · cases hsc : scanFilename ((c :: cs).drop 7) with
          | none =>
            simp only [processCharsGo, hp, hsc, if_true]
            simp only [List.length_cons] at h1 h2
            rw [ih g cs (by omega) (by omega)]
          | some p =>
            obtain ⟨fname, rest⟩ := p
            have hr := scanFilename_length _ _ _ hsc
            simp only [processCharsGo, hp, hsc, if_true]
            simp only [List.length_cons, List.length_drop] at h1 h2 hr
            rw [ih g rest (by omega) (by omega)]
        · simp only [processCharsGo, hp, if_false, Bool.false_eq_true]
          simp only [List.length_cons] at h1 h2
          rw [ih g cs (by omega) (by omega)]

/-! ## Claim theorems -/

/-- C7: for every text containing no `<` character, `_clean_html` returns the
input unchanged (identity on plain text); in particular the empty text, which
contains no `<`, is returned as the empty string, i.e. unchanged. -/
theorem clean_html_identity_on_plain_text (soup : String → String) (text : String)
    (h : text.data.contains '<' = false) : cleanHtml soup text = text := by
  simp at h
  by_cases he : text = ""
  · simp [cleanHtml, he]
  · simp [cleanHtml, he, h]

/-- Witness for C7 at the plain text `hello world`. -/
theorem clean_html_identity_on_plain_text_witness :
    ("hello world" : String).data.contains '<' = false ∧
      cleanHtml soupId "hello world" = "hello world" :=
  ⟨by decide, clean_html_identity_on_plain_text soupId "hello world" (by decide)⟩

/-- C8: `_extract_db` selects `collection.anki21` whenever the archive lists
it, else `collection.anki2` whenever listed, and fails with a FormatError
when neither entry exists. -/
theorem extract_db_selection :
    (∀ entryNames : List String, entryNames.contains "collection.anki21" = true →
        extractDb entryNames = Except.ok "collection.anki21") ∧
    (∀ entryNames : List String, entryNames.contains "collection.anki21" = false →
        entryNames.contains "collection.anki2" = true →
        extractDb entryNames = Except.ok "collection.anki2") ∧
    (∀ entryNames : List String, entryNames.contains "collection.anki21" = false →
        entryNames.contains "collection.anki2" = false →
        extractDb entryNames =
          Except.error (ConvErr.formatError "Invalid apkg file: collection database not found")) := by
  refine ⟨?_, ?_, ?_⟩
  · intro names h
    simp at h
    simp [extractDb, h]
  · intro names h1 h2
    simp at h1 h2
    simp [extractDb, h1, h2]
  · intro names h1 h2
    simp at h1 h2
    simp [extractDb, h1, h2]

/-- Witness for C8 on three concrete archives: both entries present, only the
legacy entry present, neither present. -/
theorem extract_db_selection_witness :
    extractDb ["media", "collection.anki2", "collection.anki21"] = Except.ok "collection.anki21" ∧
    extractDb ["media", "collection.anki2"] = Except.ok "collection.anki2" ∧
    extractDb ["media"] =
      Except.error (ConvErr.formatError "Invalid apkg file: collection database not found") :=
  ⟨extract_db_selection.1 ["media", "collection.anki2", "collection.anki21"] (by decide),
    extract_db_selection.2.1 ["media", "collection.anki2"] (by decide) (by decide),
    extract_db_selection.2.2 ["media"] (by decide) (by decide)⟩

/-- C5: a card whose ordinal is within its note type's template count gets
that template's name as the `Card Type` column, a card whose ordinal is
beyond the count gets the synthesized name `Card` followed by ordinal + 1,
and in either case the row is produced without error (the projection of an
unfiltered row always yields a row, and its second column is the resolved
template name). -/
theorem card_type_resolution :
    (∀ (tmpls : List TemplateDef) (ord : Nat) (t : TemplateDef),
        tmpls.get? ord = some t → cardTypeNameOf tmpls ord = t.name) ∧
    (∀ (tmpls : List TemplateDef) (ord : Nat),
        tmpls.length ≤ ord → cardTypeNameOf tmpls ord = "Card " ++ toString (ord + 1)) ∧
    (∀ (models : Models) (mm : List (String × String)) (ie : Bool)
        (soup : String → String) (r : NoteCard),
        (projectRow models none mm ie soup r).isSome = true) ∧
    (∀ (models : Models) (mm : List (String × String)) (ie : Bool)
        (soup : String → String) (r : NoteCard) (out : List String),
        projectRow models none mm ie soup r = some out →
        out.get? 1 =
          some (cardTypeNameOf (((List.lookup r.mid models).map Model.tmpls).getD []) r.ord)) := by
  refine ⟨?_, ?_, ?_, ?_⟩
  · intro tmpls ord t h
    unfold cardTypeNameOf
    rw [h]
  · intro tmpls ord h
    unfold cardTypeNameOf
    rw [List.get?_eq_none.mpr h]
  · intro models mm ie soup r
    simp [projectRow]
  · intro models mm ie soup r out h
    simp only [projectRow] at h
    rw [← Option.some.injEq] at h
    simp at h
    rw [← h]
    rfl

/-- Witness for C5: ordinal 0 hits the single template of `modelA`, ordinal 5
is out of range and synthesizes `Card 6`, and the orphan row is produced with
its resolved template name in column 1. -/
theorem card_type_resolution_witness :
    cardTypeNameOf [{ name := "Front" }] 0 = "Front" ∧
    cardTypeNameOf [{ name := "Front" }] 5 = "Card 6" ∧
    (projectRow [(1, modelA)] none [] false soupId noteExtra).isSome = true ∧
    (["A", "Front", "a", "b", "c"] : List String).get? 1 =
      some (cardTypeNameOf (((List.lookup noteExtra.mid [(1, modelA)]).map Model.tmpls).getD [])
        noteExtra.ord) :=
  ⟨card_type_resolution.1 [{ name := "Front" }] 0 { name := "Front" } (by decide),
    card_type_resolution.2.1 [{ name := "Front" }] 5 (by decide),
    card_type_resolution.2.2.1 [(1, modelA)] [] false soupId noteExtra,
    card_type_resolution.2.2.2 [(1, modelA)] [] false soupId noteExtra
      ["A", "Front", "a", "b", "c"] (by decide)⟩

/-- C9: under every outcome trace of the fallible pipeline steps — success or
an exception at any step — the `finally` blocks of `convert` and of
`get_model_names` leave no scratch database file and no open connection. -/
theorem resources_released_on_all_paths :
    (∀ t : ConvertTrace,
        (convertRun t).2 = { tempFileExists := false, connOpen := false }) ∧
    (∀ t : ModelNamesTrace,
        (getModelNamesRun t).2 = { tempFileExists := false, connOpen := false }) := by
  constructor
  · intro t
    obtain ⟨a, b, c, d, e, f⟩ := t
    cases a <;> cases b <;> cases c <;> cases d <;> cases e <;> cases f <;> rfl
  · intro t
    obtain ⟨a, b, c⟩ := t
    cases a <;> cases b <;> cases c <;> rfl

/-- C1 counterexample: on the two-model catalog whose field sets differ, the
code's unfiltered header keeps only the first model's fields, so it differs
from the spec's first-seen union of field names across all note types. -/
theorem header_union_counterexample :
    getHeader twoModels none = Except.ok ["Note Type", "Card Type", "F1", "F2"] ∧
    specHeaderUnion twoModels = ["Note Type", "Card Type", "F1", "F2", "F3"] ∧
    getHeader twoModels none ≠ Except.ok (specHeaderUnion twoModels) := by decide

/-- C1 as amended: for every non-empty catalog with no note-type filter, the
resolved header equals `["Note Type", "Card Type"]` followed by the FIRST
note type's field names (not the union across all note types); and every
successfully resolved header begins with exactly
`["Note Type", "Card Type"]`. -/
theorem header_defaults_to_first_model :
    (∀ (p : Int × Model) (ms : List (Int × Model)),
        getHeader (p :: ms) none =
          Except.ok (["Note Type", "Card Type"] ++ p.2.flds.map FieldDef.name)) ∧
    (∀ (models : Models) (mid : Option Int) (hdr : List String),
        getHeader models mid = Except.ok hdr → hdr.take 2 = ["Note Type", "Card Type"]) := by
  constructor
  · intro p ms
    simp [getHeader, midTruthy]
  · intro models mid hdr hok
    unfold getHeader at hok
    by_cases he : models.isEmpty
    · simp [he] at hok
    · simp only [he, if_false, Bool.false_eq_true] at hok
      split at hok
      · simp at hok
      · simp only [Except.ok.injEq] at hok
        rw [← hok]
        simp

/-- Witness for C1: the first-model header at the two-model catalog, and the
two-column start of its concrete resolved header. -/
theorem header_defaults_to_first_model_witness :
    getHeader ((1, modelA) :: [(2, modelB)]) none =
      Except.ok (["Note Type", "Card Type"] ++ modelA.flds.map FieldDef.name) ∧
    (["Note Type", "Card Type", "F1", "F2"] : List String).take 2 = ["Note Type", "Card Type"] :=
  ⟨header_defaults_to_first_model.1 (1, modelA) [(2, modelB)],
    header_defaults_to_first_model.2 twoModels none ["Note Type", "Card Type", "F1", "F2"]
      (by decide)⟩

/-- C2 counterexample: a note whose raw content splits into three fragments
under a note type with two fields.  The header has length 4 but the emitted
row keeps all three fragments and has length 5: the excess fragment `c` is
not ignored and the row length does not equal the header length. -/
theorem row_length_counterexample :
    getHeader [(1, modelA)] none = Except.ok ["Note Type", "Card Type", "F1", "F2"] ∧
    getValues [(1, modelA)] none none [] false soupId [noteExtra] =
      [["A", "Front", "a", "b", "c"]] ∧
    (["A", "Front", "a", "b", "c"] : List String).length ≠
      (["Note Type", "Card Type", "F1", "F2"] : List String).length := by decide

/-- C2 as amended: every emitted row consists of the note-type column, the
card-type column and ALL sentinel-split fragments of the note's raw content,
so its length is 2 plus the fragment count — fragments in excess of the note
type's field count are kept, nothing is padded to the header length. -/
theorem row_length_tracks_fragments (models : Models) (cardType : Option String)
    (mediaMap : List (String × String)) (isExcel : Bool) (soup : String → String)
    (r : NoteCard) (out : List String)
    (h : projectRow models cardType mediaMap isExcel soup r = some out) :
    out.length = 2 + (splitFields r.flds).length := by
  simp only [projectRow] at h
  split at h
  · simp at h
  · simp only [Option.some.injEq] at h
    rw [← h]
    simp
    omega

/-- Witness for C2 at the three-fragment note: the emitted row has length
2 + 3 = 5. -/
theorem row_length_tracks_fragments_witness :
    (["A", "Front", "a", "b", "c"] : List String).length =
      2 + (splitFields noteExtra.flds).length :=
  row_length_tracks_fragments [(1, modelA)] none [] false soupId noteExtra
    ["A", "Front", "a", "b", "c"] (by decide)

/-- C3 counterexample: the orphan note (its model id 2 is absent from the
catalog) gets the placeholder name `Unknown` and a synthesized card type, but
its field column holds the note's own fragment `x`, not the empty string the
claim requires for all header field columns. -/
theorem orphan_note_counterexample :
    projectRow [(1, modelA)] none [] false soupId noteOrphan =
      some ["Unknown", "Card 1", "x"] ∧
    ("x" : String) ≠ "" := by decide

/-- C3 as amended: a (note, card) pair whose note-type id is absent from the
catalog gets the placeholder name `Unknown` in the note-type column and an
empty template list (so the card type is always the synthesized
`Card` ordinal + 1), but the field columns hold the note's own cleaned
sentinel-split fragments rather than empty strings; the projection of the
remaining rows is not aborted. -/
theorem orphan_note_defaults :
    (∀ (models : Models) (mediaMap : List (String × String)) (isExcel : Bool)
        (soup : String → String) (r : NoteCard),
        List.lookup r.mid models = none →
        projectRow models none mediaMap isExcel soup r =
          some (["Unknown", "Card " ++ toString (r.ord + 1)] ++
            (splitFields r.flds).map (cleanField mediaMap isExcel soup))) ∧
    (∀ (models : Models) (cardType : Option String) (mediaMap : List (String × String))
        (isExcel : Bool) (soup : String → String) (r : NoteCard) (rows : List NoteCard),
        getValues models none cardType mediaMap isExcel soup (r :: rows) =
          (projectRow models cardType mediaMap isExcel soup r).toList ++
            getValues models none cardType mediaMap isExcel soup rows) := by
  constructor
  · intro models mediaMap isExcel soup r h
    simp [projectRow, h, cardTypeNameOf]
  · intro models cardType mediaMap isExcel soup r rows
    cases hpr : projectRow models cardType mediaMap isExcel soup r <;>
      simp [getValues, midTruthy, List.filterMap_cons, hpr]

/-- Witness for C3: the orphan note projects to its own fragment list behind
the `Unknown` placeholder, and prepending it to a row list prepends exactly
its projected row. -/
theorem orphan_note_defaults_witness :
    projectRow [(1, modelA)] none [] false soupId noteOrphan =
      some (["Unknown", "Card " ++ toString (noteOrphan.ord + 1)] ++
        (splitFields noteOrphan.flds).map (cleanField [] false soupId)) ∧
    getValues [(1, modelA)] none none [] false soupId (noteOrphan :: [noteExtra]) =
      (projectRow [(1, modelA)] none [] false soupId noteOrphan).toList ++
        getValues [(1, modelA)] none none [] false soupId [noteExtra] :=
  ⟨orphan_note_defaults.1 [(1, modelA)] [] false soupId noteOrphan (by decide),
    orphan_note_defaults.2 [(1, modelA)] none [] false soupId noteOrphan [noteExtra]⟩

/-- C4 counterexample: the empty-string filter matches no note type of the
catalog (no model is named by the empty string), yet `convert` does not raise
NotFoundError — Python's `if model_name:` treats the empty string as "no
filter given" and the conversion succeeds, producing output. -/
theorem empty_filter_counterexample :
    resolveMid [(1, modelA)] "" = none ∧
    convert [(1, modelA)] [noteExtra] (some "") none [] false soupId =
      Except.ok { header := ["Note Type", "Card Type", "F1", "F2"],
                  values := [["A", "Front", "a", "b", "c"]] } := by decide

/-- C4 as amended: for every NON-EMPTY note-type name filter that matches no
note type in the catalog, `convert` fails with NotFoundError before the
header and rows are computed, so no output is produced; an empty-string
filter, however, is treated exactly as if no filter were given. -/
theorem unresolvable_filter_aborts :
    (∀ (models : Models) (rows : List NoteCard) (mn : String) (cardType : Option String)
        (mediaMap : List (String × String)) (isExcel : Bool) (soup : String → String),
        mn ≠ "" → resolveMid models mn = none →
        convert models rows (some mn) cardType mediaMap isExcel soup =
          Except.error (ConvErr.notFound ("Model " ++ mn ++ " not found"))) ∧
    (∀ (models : Models) (rows : List NoteCard) (cardType : Option String)
        (mediaMap : List (String × String)) (isExcel : Bool) (soup : String → String),
        convert models rows (some "") cardType mediaMap isExcel soup =
          convert models rows none cardType mediaMap isExcel soup) := by
  constructor
  · intro models rows mn cardType mediaMap isExcel soup h1 h2
    simp [convert, modelNameTruthy, h1, h2]
  · intro models rows cardType mediaMap isExcel soup
    rfl

/-- Witness for C4: the filter name `Nope` resolves to no model of the
single-model catalog and conversion aborts with NotFoundError. -/
theorem unresolvable_filter_aborts_witness :
    convert [(1, modelA)] [noteExtra] (some "Nope") none [] false soupId =
      Except.error (ConvErr.notFound ("Model " ++ "Nope" ++ " not found")) ∧
    convert [(1, modelA)] [noteExtra] (some "") none [] false soupId =
      convert [(1, modelA)] [noteExtra] none none [] false soupId :=
  ⟨unresolvable_filter_aborts.1 [(1, modelA)] [noteExtra] "Nope" none [] false soupId
      (by decide) (by decide),
    unresolvable_filter_aborts.2 [(1, modelA)] [noteExtra] none [] false soupId⟩

/-- C10: when a note-type name filter resolves to the model id 0, the falsy
id passes the truthiness checks of `_get_header` and `_get_values`, so the
whole conversion behaves exactly as if no filter were given: the header
defaults to the first note type's fields and rows of every note type are
emitted. -/
theorem zero_id_filter_ignored :
    (∀ (models : Models) (mn : String), mn ≠ "" → resolveMid models mn = some 0 →
        ∀ (rows : List NoteCard) (cardType : Option String)
          (mediaMap : List (String × String)) (isExcel : Bool) (soup : String → String),
          convert models rows (some mn) cardType mediaMap isExcel soup =
            convert models rows none cardType mediaMap isExcel soup) ∧
    (∀ models : Models, getHeader models (some 0) = getHeader models none) ∧
    (∀ (models : Models) (cardType : Option String) (mediaMap : List (String × String))
        (isExcel : Bool) (soup : String → String) (rows : List NoteCard),
        getValues models (some 0) cardType mediaMap isExcel soup rows =
          getValues models none cardType mediaMap isExcel soup rows) := by
  refine ⟨?_, ?_, ?_⟩
  · intro models mn h1 h2 rows cardType mediaMap isExcel soup
    simp only [convert, modelNameTruthy, Option.getD_some, bne_iff_ne, ne_eq, h1,
      not_false_eq_true, if_true, h2]
    rfl
  · intro models
    rfl
  · intro models cardType mediaMap isExcel soup rows
    rfl

/-- Witness for C10 on the catalog whose first note type `Z` has id 0:
filtering by `Z` is resolved to id 0 and the run equals the unfiltered run —
the header shows the first model's field `G1` and both models' rows appear. -/
theorem zero_id_filter_ignored_witness :
    convert zeroCatalog [noteExtra, { flds := "g", mid := 0, ord := 0 }] (some "Z") none []
        false soupId =
      convert zeroCatalog [noteExtra, { flds := "g", mid := 0, ord := 0 }] none none []
        false soupId ∧
    getHeader zeroCatalog (some 0) = getHeader zeroCatalog none ∧
    getValues zeroCatalog (some 0) none [] false soupId [noteExtra] =
      getValues zeroCatalog none none [] false soupId [noteExtra] :=
  ⟨zero_id_filter_ignored.1 zeroCatalog "Z" (by decide) (by decide)
      [noteExtra, { flds := "g", mid := 0, ord := 0 }] none [] false soupId,
    zero_id_filter_ignored.2.1 zeroCatalog,
    zero_id_filter_ignored.2.2 zeroCatalog none [] false soupId [noteExtra]⟩

/-! ## Lemmas for the media-tag substitution -/

theorem isPrefixOf_append_self (p l : List Char) : p.isPrefixOf (p ++ l) = true :=
  List.isPrefixOf_iff_prefix.mpr (List.prefix_append p l)

theorem scanFilename_append_closing :
    ∀ (fname rest : List Char), ']' ∉ fname → '\n' ∉ fname →
      scanFilename (fname ++ ']' :: rest) = some (fname, rest) := by
  intro fname
  induction fname with
  | nil =>
    intro rest _ _
    simp [scanFilename]
  | cons c f ih =>
    intro rest h1 h2
    simp only [List.mem_cons, not_or] at h1 h2
    simp only [List.cons_append, scanFilename, List.append_eq]
    rw [if_neg fun he => h1.1 he.symm, if_neg fun he => h2.1 he.symm,
      ih rest h1.2 h2.2]

theorem processChars_cons_of_ne (m : List (String × String)) (e : Bool) (c : Char)
    (cs : List Char) (hc : c ≠ '[') :
    processChars m e (c :: cs) = c :: processChars m e cs := by
  have hp : ("[sound:".data.isPrefixOf (c :: cs)) = false := by
    show (('[' == c) && "sound:".data.isPrefixOf cs) = false
    rw [beq_eq_false_iff_ne.mpr (Ne.symm hc)]
    rfl
  show processCharsGo m e (cs.length + 1) (c :: cs) = c :: processCharsGo m e cs.length cs
  simp only [processCharsGo, hp, if_false, Bool.false_eq_true]

theorem processChars_tag (m : List (String × String)) (e : Bool) (fname rest : List Char)
    (h1 : ']' ∉ fname) (h2 : '\n' ∉ fname) :
    processChars m e ('[' :: 's' :: 'o' :: 'u' :: 'n' :: 'd' :: ':' :: (fname ++ ']' :: rest)) =
      (soundReplacement m e (String.mk fname)).data ++ processChars m e rest := by
  have hp : "[sound:".data.isPrefixOf
      ('[' :: 's' :: 'o' :: 'u' :: 'n' :: 'd' :: ':' :: (fname ++ ']' :: rest)) = true :=
    isPrefixOf_append_self "[sound:".data (fname ++ ']' :: rest)
  have hdrop : (('[' :: 's' :: 'o' :: 'u' :: 'n' :: 'd' :: ':' :: (fname ++ ']' :: rest)).drop 7) =
      fname ++ ']' :: rest := rfl
  have hscan := scanFilename_append_closing fname rest h1 h2
  show processCharsGo m e ((fname ++ ']' :: rest).length + 1 + 1 + 1 + 1 + 1 + 1 + 1)
      ('[' :: 's' :: 'o' :: 'u' :: 'n' :: 'd' :: ':' :: (fname ++ ']' :: rest)) = _
  simp only [processCharsGo, hp, if_true, hdrop, hscan]
  rw [processCharsGo_fuel m e ((fname ++ ']' :: rest).length + 1 + 1 + 1 + 1 + 1 + 1) rest.length
    rest (by simp; omega) (Nat.le_refl rest.length)]
  rfl

theorem processCharsGo_id_of_no_tag (m : List (String × String)) (e : Bool) :
    ∀ (fuel : Nat) (l : List Char), l.length ≤ fuel → hasSoundTag l = false →
      processCharsGo m e fuel l = l := by
  intro fuel
  induction fuel with
  | zero =>
    intro l _ _
    cases l <;> rfl
  | succ f ih =>
    intro l hlen htag
    cases l with
    | nil => rfl
    | cons c cs =>
      simp only [List.length_cons] at hlen
      by_cases hp : "[sound:".data.isPrefixOf (c :: cs)
      · cases hsc : scanFilename ((c :: cs).drop 7) with
        | some p =>
          rw [hasSoundTag, if_pos hp, hsc] at htag
          simp at htag
        | none =>
          rw [hasSoundTag, if_pos hp, hsc] at htag
          simp only [processCharsGo, hp, if_true, hsc]
          rw [ih cs (by omega) htag]
      · rw [hasSoundTag, if_neg hp] at htag
        simp only [processCharsGo, hp, if_false, Bool.false_eq_true]
        rw [ih cs (by omega) htag]

theorem processChars_id_of_no_tag (m : List (String × String)) (e : Bool) (l : List Char)
    (h : hasSoundTag l = false) : processChars m e l = l :=
  processCharsGo_id_of_no_tag m e l.length l (Nat.le_refl l.length) h

theorem processChars_occurrence (m : List (String × String)) (e : Bool) :
    ∀ (pre fname rest : List Char), '[' ∉ pre → ']' ∉ fname → '\n' ∉ fname →
      processChars m e
          (pre ++ '[' :: 's' :: 'o' :: 'u' :: 'n' :: 'd' :: ':' :: (fname ++ ']' :: rest)) =
        pre ++ ((soundReplacement m e (String.mk fname)).data ++ processChars m e rest) := by
  intro pre
  induction pre with
  | nil =>
    intro fname rest _ h1 h2
    simpa using processChars_tag m e fname rest h1 h2
  | cons c p ih =>
    intro fname rest hpre h1 h2
    simp only [List.mem_cons, not_or] at hpre
    rw [List.cons_append, processChars_cons_of_ne m e c _ fun he => hpre.1 he.symm,
      ih fname rest hpre.2 h1 h2, List.cons_append]

theorem string_data_inj (a b : String) (h : a.data = b.data) : a = b := by
  cases a
  cases b
  exact congrArg String.mk h

theorem processMediaTags_occurrence (m : List (String × String)) (e : Bool)
    (pre fname post : String) (hpre : '[' ∉ pre.data) (h1 : ']' ∉ fname.data)
    (h2 : '\n' ∉ fname.data) (hpost : hasSoundTag post.data = false) :
    processMediaTags m e (pre ++ "[sound:" ++ fname ++ "]" ++ post) =
      pre ++ soundReplacement m e fname ++ post := by
  have hdata : (pre ++ "[sound:" ++ fname ++ "]" ++ post).data =
      pre.data ++
        '[' :: 's' :: 'o' :: 'u' :: 'n' :: 'd' :: ':' :: (fname.data ++ ']' :: post.data) := by
    have hs : "[sound:".data = ['[', 's', 'o', 'u', 'n', 'd', ':'] := rfl
    have hb : "]".data = [']'] := rfl
    simp [String.data_append, hs, hb]
  have hne : (pre ++ "[sound:" ++ fname ++ "]" ++ post) ≠ "" := by
    intro he
    have hd0 : (pre ++ "[sound:" ++ fname ++ "]" ++ post).data = [] := by rw [he]
    rw [hdata] at hd0
    simp at hd0
  unfold processMediaTags
  rw [if_neg hne]
  unfold processChars
  rw [hdata]
  show String.mk
    (processChars m e
      (pre.data ++
        '[' :: 's' :: 'o' :: 'u' :: 'n' :: 'd' :: ':' :: (fname.data ++ ']' :: post.data))) = _
  rw [processChars_occurrence m e pre.data fname.data post.data hpre h1 h2,
    processChars_id_of_no_tag m e post.data hpost]
  have hmk : String.mk fname.data = fname := rfl
  rw [hmk]
  apply string_data_inj
  simp [String.data_append]

/-- C6: `_process_media_tags` replaces a `[sound:filename]` occurrence whose
filename is a key of the media map by the mapped relative path for a
delimited-text target, and by the formula
`=HYPERLINK("path", "Play Audio")` for a spreadsheet target; an occurrence
with an unmapped filename is left verbatim; text with no `[sound:...]`
occurrence is returned unchanged, hence the substitution is idempotent on
such text.  (The occurrence is delimited by a surrounding prefix with no `[`
and a suffix with no further tag; the filename capture is non-greedy, so it
contains no `]` and, the regex dot not matching newlines, no newline.) -/
theorem media_reference_rewriting :
    (∀ (mediaMap : List (String × String)) (pre fname post path : String),
        '[' ∉ pre.data → ']' ∉ fname.data → '\n' ∉ fname.data →
        hasSoundTag post.data = false →
        List.lookup fname mediaMap = some path →
        processMediaTags mediaMap false (pre ++ "[sound:" ++ fname ++ "]" ++ post) =
          pre ++ path ++ post) ∧
    (∀ (mediaMap : List (String × String)) (pre fname post path : String),
        '[' ∉ pre.data → ']' ∉ fname.data → '\n' ∉ fname.data →
        hasSoundTag post.data = false →
        List.lookup fname mediaMap = some path →
        processMediaTags mediaMap true (pre ++ "[sound:" ++ fname ++ "]" ++ post) =
          pre ++ ("=HYPERLINK(\x22" ++ path ++ "\x22, \x22Play Audio\x22)") ++ post) ∧
    (∀ (mediaMap : List (String × String)) (isExcel : Bool) (pre fname post : String),
        '[' ∉ pre.data → ']' ∉ fname.data → '\n' ∉ fname.data →
        hasSoundTag post.data = false →
        List.lookup fname mediaMap = none →
        processMediaTags mediaMap isExcel (pre ++ "[sound:" ++ fname ++ "]" ++ post) =
          pre ++ "[sound:" ++ fname ++ "]" ++ post) ∧
    (∀ (mediaMap : List (String × String)) (isExcel : Bool) (text : String),
        hasSoundTag text.data = false →
        processMediaTags mediaMap isExcel text = text) ∧
    (∀ (mediaMap : List (String × String)) (isExcel : Bool) (text : String),
        hasSoundTag text.data = false →
        processMediaTags mediaMap isExcel (processMediaTags mediaMap isExcel text) =
          processMediaTags mediaMap isExcel text) := by
  have hid : ∀ (mediaMap : List (String × String)) (isExcel : Bool) (text : String),
      hasSoundTag text.data = false → processMediaTags mediaMap isExcel text = text := by
    intro mediaMap isExcel text h
    by_cases he : text = ""
    · rw [he]
      rfl
    · unfold processMediaTags
      rw [if_neg he, processChars_id_of_no_tag mediaMap isExcel text.data h]
  refine ⟨?_, ?_, ?_, hid, ?_⟩
  · intro mediaMap pre fname post path hpre h1 h2 hpost hl
    rw [processMediaTags_occurrence mediaMap false pre fname post hpre h1 h2 hpost]
    simp [soundReplacement, hl]
  · intro mediaMap pre fname post path hpre h1 h2 hpost hl
    rw [processMediaTags_occurrence mediaMap true pre fname post hpre h1 h2 hpost]
    simp [soundReplacement, hl]
  · intro mediaMap isExcel pre fname post hpre h1 h2 hpost hl
    rw [processMediaTags_occurrence mediaMap isExcel pre fname post hpre h1 h2 hpost]
    apply string_data_inj
    simp [String.data_append, soundReplacement, hl]
  · intro mediaMap isExcel text h
    rw [hid mediaMap isExcel text h]
    exact hid mediaMap isExcel text h

/-- Witness for C6, instantiating the spec's own example: the tag
`[sound:sound.mp3]` in `Listen [sound:sound.mp3] here` is rewritten to the
mapped path for a text target and to a hyperlink formula for a spreadsheet
target, an unmapped filename stays verbatim, and a tag-free text is a fixed
point (hence idempotent). -/
theorem media_reference_rewriting_witness :
    processMediaTags [("sound.mp3", "media/sound.mp3")] false
        ("Listen " ++ "[sound:" ++ "sound.mp3" ++ "]" ++ " here") =
      "Listen " ++ "media/sound.mp3" ++ " here" ∧
    processMediaTags [("sound.mp3", "media/sound.mp3")] true
        ("Listen " ++ "[sound:" ++ "sound.mp3" ++ "]" ++ " here") =
      "Listen " ++ ("=HYPERLINK(\x22" ++ "media/sound.mp3" ++ "\x22, \x22Play Audio\x22)") ++
        " here" ∧
    processMediaTags [("sound.mp3", "media/sound.mp3")] false
        ("Listen " ++ "[sound:" ++ "missing.mp3" ++ "]" ++ " here") =
      "Listen " ++ "[sound:" ++ "missing.mp3" ++ "]" ++ " here" ∧
    processMediaTags [("sound.mp3", "media/sound.mp3")] false "plain text" = "plain text" ∧
    processMediaTags [("sound.mp3", "media/sound.mp3")] false
        (processMediaTags [("sound.mp3", "media/sound.mp3")] false "plain text") =
      processMediaTags [("sound.mp3", "media/sound.mp3")] false "plain text" :=
  ⟨media_reference_rewriting.1 [("sound.mp3", "media/sound.mp3")] "Listen " "sound.mp3"
      " here" "media/sound.mp3" (by decide) (by decide) (by decide) (by decide) (by decide),
    media_reference_rewriting.2.1 [("sound.mp3", "media/sound.mp3")] "Listen " "sound.mp3"
      " here" "media/sound.mp3" (by decide) (by decide) (by decide) (by decide) (by decide),
    media_reference_rewriting.2.2.1 [("sound.mp3", "media/sound.mp3")] false "Listen "
      "missing.mp3" " here" (by decide) (by decide) (by decide) (by decide) (by decide),
    media_reference_rewriting.2.2.2.1 [("sound.mp3", "media/sound.mp3")] false "plain text"
      (by decide),
    media_reference_rewriting.2.2.2.2 [("sound.mp3", "media/sound.mp3")] false "plain text"
      (by decide)⟩
